import Mathlib

/-!
Verification of the kritis policy-evaluation core: a shallow embedding of
pkg/kritis/crd/securitypolicy (ValidateImageSecurityPolicy and its helpers)
and pkg/kritis/review (Review and its helpers), with theorems checking the
natural-language specification against the code.

Go conventions are embedded as follows: a Go function returning
(value, error) becomes a Lean function returning a pair whose second
component is an Option String (none = nil error); fatal-error-only results
become Except String.  External collaborators that live outside the staged
sources (PGP / KMS cryptography, the image-reference parser, the metadata
backend, the binauthz attestor service, the violation strategy) are
interface values in Go and are embedded as records of oracle functions that
the theorems quantify over.
-/

set_option maxHeartbeats 1000000

namespace Kritis

/-- metadata.Vulnerability: cve, severity (a string naming a lattice level)
and whether a fix is available. -/
structure Vulnerability where
  CVE : String
  Severity : String
  HasFixAvailable : Bool
deriving DecidableEq

/-- metadata.PGPAttestation: a detached PGP signature, the fingerprint of
the signing key, and the backend occurrence id. -/
structure PGPAttestation where
  Signature : String
  KeyID : String
  OccID : String
deriving DecidableEq

/-- One compact JWT carried by a V1 occurrence (occ.Attestation.Jwts in the
source). -/
structure JwtEntry where
  CompactJwt : String
deriving DecidableEq

/-- The attestation part of a V1 occurrence. -/
structure OccAttestationV1 where
  Jwts : List JwtEntry
deriving DecidableEq

/-- metadata.OccurenceV1, restricted to the fields the evaluator reads:
NoteName and the JWT list. -/
structure OccurenceV1 where
  NoteName : String
  Attestation : OccAttestationV1
deriving DecidableEq

/-- v1beta1.PackageVulnerabilityRequirements of an ImageSecurityPolicy. -/
structure PackageVulnReqs where
  MaximumSeverity : String
  MaximumFixUnavailableSeverity : String
  WhitelistCVEs : List String
deriving DecidableEq

/-- v1beta1.ImageSecurityPolicySpec, restricted to the fields the evaluator
and the reviewer read. -/
structure ImageSecurityPolicySpec where
  ImageWhitelist : List String
  PackageVulnerabilityRequirements : PackageVulnReqs
  BuiltProjectIDs : List String
  RequireAttestationsBy : List String
  AttestationAuthorityNames : List String
deriving DecidableEq

/-- v1beta1.ImageSecurityPolicy: a namespaced named object with a spec. -/
structure ImageSecurityPolicy where
  Name : String
  Namespace : String
  Spec : ImageSecurityPolicySpec
deriving DecidableEq

/-- v1beta1.AttestationAuthoritySpec. -/
structure AttestationAuthoritySpec where
  NoteReference : String
  PublicKeyData : String
  PrivateKeySecretName : String
deriving DecidableEq

/-- v1beta1.AttestationAuthority. -/
structure AttestationAuthority where
  Name : String
  Namespace : String
  Spec : AttestationAuthoritySpec
deriving DecidableEq

/-- securitypolicy.AttestorPublicKey: ID is the key fingerprint. -/
structure AttestorPublicKey where
  ID : String
  AsciiArmor : String
deriving DecidableEq

/-- securitypolicy.Attestor (a binary-authorization attestor). -/
structure Attestor where
  Name : String
  PublicKeys : List AttestorPublicKey
deriving DecidableEq

/-- policy violation kinds used by the evaluator (package policy, not under
the staged sources; the names follow the constants the evaluator cites). -/
inductive ViolationType where
  | UnqualifiedImageViolation
  | FixUnavailableViolation
  | SeverityViolation
  | ArkCISignatureViolation
  | BuildProjectIDViolation
  | RequiredAttestationViolation
deriving DecidableEq

/-- securitypolicy.Violation: an optional vulnerability, a kind, a reason. -/
structure Violation where
  vulnerability : Option Vulnerability
  vType : ViolationType
  reason : String
deriving DecidableEq

/-- securitypolicy.NewViolation builds a Violation from its three fields. -/
def NewViolation (v : Option Vulnerability) (t : ViolationType) (r : String) :
    Violation :=
  ⟨v, t, r⟩

/-- The claims a verified ArkCI JWT exposes to the evaluator: whether the
token.Claims type assertion to jwt.MapClaims succeeds, and the value of the
gcp_project claim when it is a string.  The Go code assigns
signedProjectID, _ = claims[gcp_project].(string), so a missing or
non-string claim yields the empty string. -/
structure ArkToken where
  mapClaimsOk : Bool
  gcpProject : Option String
deriving DecidableEq

/-- External collaborators of the evaluator and the reviewer that are
interface values or process-level functions in Go (cryptography, KMS, the
image-reference parser, environment configuration).  Each field is an
oracle the theorems quantify over:
  FullyQualifiedImage embeds resolve.FullyQualifiedImage;
  arkSignatureNote embeds os.Getenv of ARKCI_SIGNATURE_NOTE;
  verifyArkSignature embeds the KMS-backed JWT check of the same name;
  newAtomicContainerSigErr is the error result of
    container.NewAtomicContainerSig for an image (none = success);
  verifyAttestationSignature tells whether a detached signature over the
    atomic payload of an image verifies under an ASCII-armored public key
    (arguments: image, armor, signature);
  fingerprint embeds the review package helper of the same name, returning
    the decoded key and its fingerprint;
  RemoveGloballyWhitelistedImages embeds util.RemoveGloballyWhitelistedImages. -/
structure Externals where
  FullyQualifiedImage : String → Bool
  arkSignatureNote : String
  verifyArkSignature : OccurenceV1 → Except String ArkToken
  newAtomicContainerSigErr : String → Option String
  verifyAttestationSignature : String → String → String → Bool
  fingerprint : String → Except String (String × String)
  RemoveGloballyWhitelistedImages : List String → List String

/-- metadata.Fetcher, the metadata facade, restricted to the calls the
evaluator and the reviewer make.  Each call returns a Go-style
(value, error) pair. -/
structure Fetcher where
  Vulnerabilities : String → List Vulnerability × Option String
  OccurencesV1 : String → List OccurenceV1 × Option String
  Attestations : String → List PGPAttestation × Option String

/-- securitypolicy.AttestorFetcher: GetAttestor returns a Go-style
(pointer, error) pair, so the value may be absent with a nil error. -/
structure AttestorFetcher where
  GetAttestor : String → Option Attestor × Option String

/-- constants.BlockAll (package constants, not under the staged sources).
Modelled from the spec: the block-all sentinel severity. -/
def BlockAll : String := "BLOCK_ALL"

/-- constants.AllowAll (package constants, not under the staged sources).
Modelled from the spec: the allow-all sentinel severity. -/
def AllowAll : String := "ALLOW_ALL"

/-- vulnerability.Severity_value, the genproto severity table the evaluator
validates severity strings against (a dependency, not under the staged
sources).  Modelled from the spec: the ordered lattice MINIMAL, LOW,
MEDIUM, HIGH, CRITICAL, together with the SEVERITY_UNSPECIFIED entry the
generated table carries at rank 0; every other string is unknown. -/
def Severity_value (s : String) : Option Int :=
  if s = "SEVERITY_UNSPECIFIED" then some 0
  else if s = "MINIMAL" then some 1
  else if s = "LOW" then some 2
  else if s = "MEDIUM" then some 3
  else if s = "HIGH" then some 4
  else if s = "CRITICAL" then some 5
  else none

/-- A string is a lattice level when the severity table knows it. -/
def isLatticeLevel (s : String) : Bool := (Severity_value s).isSome

/-- The rank of a severity string in the table (0 when unknown; only used
under the isLatticeLevel guard). -/
def severityRank (s : String) : Int := (Severity_value s).getD 0

/-- securitypolicy.severityWithinThreshold: sentinel thresholds decide
first, then both strings are validated against the severity table, then
ranks are compared. -/
def severityWithinThreshold (maxSeverity severity : String) :
    Bool × Option String :=
  if maxSeverity = BlockAll then (false, none)
  else if maxSeverity = AllowAll then (true, none)
  else
    match Severity_value maxSeverity with
    | none => (false, some ("invalid max severity level: " ++ maxSeverity))
    | some mv =>
      match Severity_value severity with
      | none => (false, some ("invalid severity level: " ++ severity))
      | some sv => (decide (sv ≤ mv), none)

/-- securitypolicy.imageInWhitelist: exact string membership. -/
def imageInWhitelist (isp : ImageSecurityPolicy) (image : String) : Bool :=
  isp.Spec.ImageWhitelist.any (fun i => i == image)

/-- securitypolicy.imageInGCR: the image starts with one of the four GCR
hosts followed by the project id. -/
def imageInGCR (projectID : String) (image : String) : Bool :=
  ["gcr.io", "asia.gcr.io", "eu.gcr.io", "us.gcr.io"].any
    (fun p => image.startsWith (p ++ "/" ++ projectID ++ "/"))

/-- securitypolicy.cveInWhitelist: exact string membership. -/
def cveInWhitelist (isp : ImageSecurityPolicy) (cve : String) : Bool :=
  isp.Spec.PackageVulnerabilityRequirements.WhitelistCVEs.any
    (fun w => w == cve)

/-- Go %q of a string (escaping elided: the embedded strings carry no
quotes). -/
def goQuote (s : String) : String := "\"" ++ s ++ "\""

/-- securitypolicy.UnqualifiedImageReason (reason helper, not under the
staged sources).  Modelled from the spec: the scenario text is
"nginx is not fully qualified". -/
def UnqualifiedImageReason (image : String) : String :=
  image ++ " is not fully qualified"

/-- securitypolicy.SeverityReason (reason helper, not under the staged
sources).  Modelled from the spec: a human string citing the CVE. -/
def SeverityReason (image : String) (v : Vulnerability)
    (isp : ImageSecurityPolicy) : String :=
  "found CVE " ++ v.CVE ++ " in " ++ image ++ " which has severity " ++
    v.Severity ++ " exceeding max severity " ++
    isp.Spec.PackageVulnerabilityRequirements.MaximumSeverity

/-- securitypolicy.FixUnavailableReason (reason helper, not under the
staged sources).  Modelled from the spec: a human string citing the CVE. -/
def FixUnavailableReason (image : String) (v : Vulnerability)
    (isp : ImageSecurityPolicy) : String :=
  "found CVE " ++ v.CVE ++ " in " ++ image ++
    " which has no fix available and severity " ++ v.Severity ++
    " exceeding max fix unavailable severity " ++
    isp.Spec.PackageVulnerabilityRequirements.MaximumFixUnavailableSeverity

/-- The reason string the evaluator formats for a Built-Project-ID
violation (source: fmt.Sprintf over the joined BuiltProjectIDs). -/
def buildProjectIDReason (image : String) (isp : ImageSecurityPolicy) :
    String :=
  goQuote image ++ " does not come from a permitted GCR: [" ++
    String.intercalate "," isp.Spec.BuiltProjectIDs ++ "]"

/-- The reason string the evaluator formats for a Required-Attestation
violation. -/
def requiredAttestationReason (image required : String) : String :=
  goQuote image ++ " does not have a required attestation: [" ++
    required ++ "]"

/-- The maximum severity the evaluator actually compares against: the ISP
field, defaulted to CRITICAL when empty (source lines 88-91). -/
def effectiveMaxSeverity (isp : ImageSecurityPolicy) : String :=
  if isp.Spec.PackageVulnerabilityRequirements.MaximumSeverity = "" then
    "CRITICAL"
  else isp.Spec.PackageVulnerabilityRequirements.MaximumSeverity

/-- The maximum fix-unavailable severity the evaluator actually compares
against: the ISP field, defaulted to ALLOW_ALL when empty (source lines
93-96). -/
def effectiveMaxFixUnavailableSeverity (isp : ImageSecurityPolicy) :
    String :=
  if isp.Spec.PackageVulnerabilityRequirements.MaximumFixUnavailableSeverity
      = "" then
    "ALLOW_ALL"
  else isp.Spec.PackageVulnerabilityRequirements.MaximumFixUnavailableSeverity

/-- The vulnerability loop of ValidateImageSecurityPolicy (source lines
98-132): whitelisted CVEs are skipped; a vulnerability without a fix is
compared against maxNoFixSev and yields a Fix-Unavailable violation when over
it; one with a fix is compared against maxSev and yields a Severity
violation; a threshold error stops the loop, keeping the violations
accumulated so far (the Go code returns violations, err there). -/
def vulnViolations (isp : ImageSecurityPolicy) (image : String)
    (maxSev maxNoFixSev : String) :
    List Vulnerability → List Violation × Option String
  | [] => ([], none)
  | v :: rest =>
    if cveInWhitelist isp v.CVE then
      vulnViolations isp image maxSev maxNoFixSev rest
    else if !v.HasFixAvailable then
      match severityWithinThreshold maxNoFixSev v.Severity with
      | (_, some e) => ([], some e)
      | (ok, none) =>
        if ok then vulnViolations isp image maxSev maxNoFixSev rest
        else
          let res := vulnViolations isp image maxSev maxNoFixSev rest
          (NewViolation (some v) .FixUnavailableViolation
            (FixUnavailableReason image v isp) :: res.1, res.2)
    else
      match severityWithinThreshold maxSev v.Severity with
      | (_, some e) => ([], some e)
      | (ok, none) =>
        if ok then vulnViolations isp image maxSev maxNoFixSev rest
        else
          let res := vulnViolations isp image maxSev maxNoFixSev rest
          (NewViolation (some v) .SeverityViolation
            (SeverityReason image v isp) :: res.1, res.2)

/-- The ArkCI occurrence loop of ValidateImageSecurityPolicy (source lines
138-163): occurrences whose NoteName equals the configured note are
verified; a verification failure appends an ArkCI-Signature violation; a
success replaces signedProjectID with the gcp_project claim (empty when the
claim is absent); other occurrences are skipped. -/
def arkLoop (env : Externals) :
    List OccurenceV1 → String → List Violation × String
  | [], signedProjectID => ([], signedProjectID)
  | occ :: rest, signedProjectID =>
    if occ.NoteName = env.arkSignatureNote then
      match env.verifyArkSignature occ with
      | .error e =>
        let res := arkLoop env rest signedProjectID
        (NewViolation none .ArkCISignatureViolation
          ("failed to verify ArkCI signature: " ++ e) :: res.1, res.2)
      | .ok token =>
        if token.mapClaimsOk then arkLoop env rest (token.gcpProject.getD "")
        else arkLoop env rest signedProjectID
    else arkLoop env rest signedProjectID

/-- The builder check of ValidateImageSecurityPolicy (source lines
165-194): with a non-empty BuiltProjectIDs list, the image is accepted when
some entry equals the JWT-derived signedProjectID or names a GCR registry
holding the image; otherwise one Built-Project-ID violation is appended. -/
def builderViolations (isp : ImageSecurityPolicy)
    (image signedProjectID : String) : List Violation :=
  if isp.Spec.BuiltProjectIDs.length > 0 then
    if isp.Spec.BuiltProjectIDs.any
        (fun projectID =>
          projectID == signedProjectID || imageInGCR projectID image) then
      []
    else
      [NewViolation none .BuildProjectIDViolation
        (buildProjectIDReason image isp)]
  else []

/-- securitypolicy.hasRequiredAttestation: an attestation satisfies the
attestor when its KeyID equals the ID of one of the attestor's public keys
and its signature verifies; a failure to build the atomic signature payload
is an error. -/
def hasRequiredAttestation (env : Externals) (image : String)
    (attestor : Attestor) (attestations : List PGPAttestation) :
    Bool × Option String :=
  match env.newAtomicContainerSigErr image with
  | some e =>
    (false,
      some ("failed to initialize attestation signature: " ++ image ++
        ": " ++ e))
  | none =>
    (attestations.any (fun attestation =>
      attestor.PublicKeys.any (fun pubKey =>
        pubKey.ID == attestation.KeyID &&
          env.verifyAttestationSignature image pubKey.AsciiArmor
            attestation.Signature)), none)

/-- The required-attestation loop of ValidateImageSecurityPolicy (source
lines 203-232): each required attestor is resolved (a resolution error or a
missing attestor aborts with an error and the Go code returns nil
violations); a resolved attestor without a satisfying attestation appends
one Required-Attestation violation. -/
def requiredAttViolations (env : Externals) (af : AttestorFetcher)
    (image : String) (attestations : List PGPAttestation) :
    List String → List Violation × Option String
  | [] => ([], none)
  | required :: rest =>
    match af.GetAttestor required with
    | (_, some e) =>
      ([], some ("failed to get an attestor: " ++ required ++ ": " ++ e))
    | (none, none) => ([], some ("attestor not found: " ++ required))
    | (some requiredAttestor, none) =>
      match hasRequiredAttestation env image requiredAttestor attestations with
      | (_, some e) =>
        ([], some ("failed to check if required attestation exist: " ++
          image ++ ", " ++ required ++ ": " ++ e))
      | (ok, none) =>
        if ok then requiredAttViolations env af image attestations rest
        else
          match requiredAttViolations env af image attestations rest with
          | (_, some e) => ([], some e)
          | (vs, none) =>
            (NewViolation none .RequiredAttestationViolation
              (requiredAttestationReason image required) :: vs, none)

/-- The tail of ValidateImageSecurityPolicy after the vulnerability loop
(source lines 134-235).  The OccurencesV1 call assigns its error to err but
the Go code never checks it (line 137), so the error is dropped and the
occurrence list is used as returned; the ArkCI loop, the builder check and
the required-attestation loop then run in order.  An error from the
Attestations fetch or from the required-attestation loop makes the Go code
return nil violations with the error. -/
def postVulnPhase (env : Externals) (isp : ImageSecurityPolicy)
    (image : String) (mf : Fetcher) (af : AttestorFetcher)
    (acc : List Violation) : List Violation × Option String :=
  let occs := (mf.OccurencesV1 image).1
  let ark := arkLoop env occs ""
  let acc1 := acc ++ ark.1 ++ builderViolations isp image ark.2
  if isp.Spec.RequireAttestationsBy.length > 0 then
    match mf.Attestations image with
    | (_, some e) => ([], some e)
    | (attestations, none) =>
      match requiredAttViolations env af image attestations
          isp.Spec.RequireAttestationsBy with
      | (_, some e) => ([], some e)
      | (rv, none) => (acc1 ++ rv, none)
  else (acc1, none)

/-- securitypolicy.ValidateImageSecurityPolicy (source lines 68-236): a
whitelisted image passes with no violations and no error; an unqualified
image yields exactly the Unqualified-Image violation; otherwise the
vulnerability loop runs over the fetched vulnerabilities (an error keeps
the violations accumulated so far), followed by the post-vulnerability
phases. -/
def ValidateImageSecurityPolicy (env : Externals)
    (isp : ImageSecurityPolicy) (image : String) (mf : Fetcher)
    (af : AttestorFetcher) : List Violation × Option String :=
  if imageInWhitelist isp image then ([], none)
  else if !env.FullyQualifiedImage image then
    ([NewViolation none .UnqualifiedImageViolation
      (UnqualifiedImageReason image)], none)
  else
    match mf.Vulnerabilities image with
    | (_, some e) => ([], some e)
    | (vulnz, none) =>
      match vulnViolations isp image (effectiveMaxSeverity isp)
          (effectiveMaxFixUnavailableSeverity isp) vulnz with
      | (vs, some e) => (vs, some e)
      | (vs, none) => postVulnPhase env isp image mf af vs

/-- violation.Strategy, restricted to the call whose result the reviewer
propagates: HandleViolation (HandleAttestation is also called but its error
is only logged, so it does not affect anything embedded here). -/
structure ViolationStrategy where
  HandleViolation : String → List Violation → Option String

/-- review.Config, restricted to the fields that affect the reviewer's
result or its sequence of Validate calls. -/
structure ReviewConfig where
  Validate :
    ImageSecurityPolicy → String → Fetcher → AttestorFetcher →
      List Violation × Option String
  Attestors : AttestorFetcher
  Auths : String → String → Except String AttestationAuthority
  Strategy : ViolationStrategy
  ClusterWhitelistedImagesRemover : List String → List String × Option String
  IsWebhook : Bool

/-- review.Reviewer: a config and a metadata client. -/
structure Reviewer where
  config : ReviewConfig
  client : Fetcher

/-- review.getAttestationAuthoritiesForISP resolves each authority name of
the ISP through config.Auths, failing fast (the misspelled wrap text is the
source's). -/
def getAuthsLoop (r : Reviewer) (ns : String) :
    List String → Except String (List AttestationAuthority)
  | [] => .ok []
  | aName :: rest =>
    match r.config.Auths ns aName with
    | .error e => .error ("faild to get attestation authorities: " ++ e)
    | .ok a =>
      match getAuthsLoop r ns rest with
      | .error e => .error e
      | .ok auths => .ok (a :: auths)

/-- review.getAttestationAuthoritiesForISP (source lines 263-273). -/
def getAttestationAuthoritiesForISP (r : Reviewer)
    (isp : ImageSecurityPolicy) : Except String (List AttestationAuthority) :=
  getAuthsLoop r isp.Namespace isp.Spec.AttestationAuthorityNames

/-- A Go map of fingerprint to armored key, as an association list where an
insert replaces any earlier binding. -/
def mapSet (m : List (String × String)) (k v : String) :
    List (String × String) :=
  (k, v) :: m.eraseP (fun p => p.1 == k)

/-- Go map lookup: the bound value, or the zero value "" when absent. -/
def mapGet (m : List (String × String)) (k : String) : String :=
  match m.find? (fun p => p.1 == k) with
  | some p => p.2
  | none => ""

/-- review.hasValidImageAttestations (source lines 138-167): keys maps the
fingerprint of each authority key to its armor (parse failures are
skipped); the result is whether some attestation's signature verifies under
the key looked up by its KeyID (a missing key looks up the empty string). -/
def hasValidImageAttestations (env : Externals) (image : String)
    (attestations : List PGPAttestation)
    (auths : List AttestationAuthority) : Bool :=
  match env.newAtomicContainerSigErr image with
  | some _ => false
  | none =>
    let keys := auths.foldl
      (fun m auth =>
        match env.fingerprint auth.Spec.PublicKeyData with
        | .error _ => m
        | .ok kf => mapSet m kf.2 kf.1)
      ([] : List (String × String))
    attestations.any (fun a =>
      env.verifyAttestationSignature image (mapGet keys a.KeyID) a.Signature)

/-- review.fetchAndVerifyAttestations (source lines 124-135): an
attestation-fetch error yields (false, fetched); otherwise the
verification result.  The Strategy.HandleAttestation call is omitted: its
error is only logged. -/
def fetchAndVerifyAttestations (env : Externals) (r : Reviewer)
    (image : String) (auths : List AttestationAuthority) :
    Bool × List PGPAttestation :=
  match r.client.Attestations image with
  | (attestations, some _) => (false, attestations)
  | (attestations, none) =>
    (hasValidImageAttestations env image attestations auths, attestations)

/-- The ToString of a violation type (package policy, not under the staged
sources).  Modelled from the spec: an opaque human name per kind. -/
def ViolationType.ToString : ViolationType → String
  | .UnqualifiedImageViolation => "unqualified image violation"
  | .FixUnavailableViolation => "fix unavailable violation"
  | .SeverityViolation => "severity violation"
  | .ArkCISignatureViolation => "arkci signature violation"
  | .BuildProjectIDViolation => "build project id violation"
  | .RequiredAttestationViolation => "required attestation violation"

/-- review.handleViolations (source lines 169-184): the summaries slice is
allocated with len(violations) zero values and then appended to, exactly as
the Go code does; the function always produces an error string. -/
def handleViolations (r : Reviewer) (image : String)
    (violations : List Violation) : String :=
  let violationSummaries :=
    List.replicate violations.length "" ++
      violations.map (fun v => v.vType.ToString ++ ": " ++ v.reason)
  let joinedSummaries :=
    "\n" ++ String.intercalate ",\n" violationSummaries ++ "\n"
  let errMsg :=
    "found violations in " ++ goQuote image ++ " (" ++ joinedSummaries ++ ")"
  match r.config.Strategy.HandleViolation image violations with
  | some e => "failed to handle violation: " ++ errMsg ++ ": " ++ e
  | none => errMsg

/-- The per-image loop of review.Review for one ISP (source lines 96-119).
The result pairs the Go return value (none = keep going / nil error) with
the list of (ISP, image) pairs the loop passed to config.Validate, in
order.  A webhook run skips a validly attested image; otherwise Validate
runs: its error aborts, non-empty violations abort through
handleViolations, and a passing image continues (the addAttestations call
of a webhook run is omitted: its error is only logged, so it affects
neither the result nor the Validate calls). -/
def reviewImagesForISP (env : Externals) (r : Reviewer)
    (isp : ImageSecurityPolicy) (auths : List AttestationAuthority) :
    List String → Option String × List (ImageSecurityPolicy × String)
  | [] => (none, [])
  | image :: rest =>
    if (fetchAndVerifyAttestations env r image auths).1 &&
        r.config.IsWebhook then
      reviewImagesForISP env r isp auths rest
    else
      match r.config.Validate isp image r.client r.config.Attestors with
      | (_, some e) =>
        (some ("failed validating image security policy: " ++ e),
          [(isp, image)])
      | (violations, none) =>
        if violations.length != 0 then
          (some (handleViolations r image violations), [(isp, image)])
        else
          match reviewImagesForISP env r isp auths rest with
          | (err, log) => (err, (isp, image) :: log)

/-- The ISP loop of review.Review (source lines 89-120): authorities are
resolved per ISP (failure aborts), then every surviving image is reviewed
against the ISP. -/
def reviewISPs (env : Externals) (r : Reviewer) (images : List String) :
    List ImageSecurityPolicy →
      Option String × List (ImageSecurityPolicy × String)
  | [] => (none, [])
  | isp :: rest =>
    match getAttestationAuthoritiesForISP r isp with
    | .error e => (some e, [])
    | .ok auths =>
      match reviewImagesForISP env r isp auths images with
      | (some e, log) => (some e, log)
      | (none, log) =>
        match reviewISPs env r images rest with
        | (err, log2) => (err, log ++ log2)

/-- review.Review (source lines 65-122): no ISPs admits; the global and
cluster whitelists filter the images (a remover error aborts, an empty
remainder admits); then the ISP loop runs.  The second component lists the
(ISP, image) pairs passed to config.Validate. -/
def Review (env : Externals) (r : Reviewer) (images : List String)
    (isps : List ImageSecurityPolicy) :
    Option String × List (ImageSecurityPolicy × String) :=
  if isps.length = 0 then (none, [])
  else if (env.RemoveGloballyWhitelistedImages images).length = 0 then
    (none, [])
  else
    match r.config.ClusterWhitelistedImagesRemover
        (env.RemoveGloballyWhitelistedImages images) with
    | (_, some e) => (some e, [])
    | (images2, none) =>
      if images2.length = 0 then (none, [])
      else reviewISPs env r images2 isps

/-- Written from the spec (§4.6 step 3), not from the code: each
vulnerability is skipped when whitelisted; otherwise its severity is
compared against maximumFixUnavailableSeverity when no fix is available and
against maximumSeverity when one is; within the threshold it is skipped,
over it it appends a Fix-Unavailable or Severity violation, and a
threshold error aborts the scan. -/
def specVulnScan (isp : ImageSecurityPolicy) (image : String)
    (maxSev maxNoFixSev : String) :
    List Vulnerability → List Violation × Option String
  | [] => ([], none)
  | v :: rest =>
    if v.CVE ∈ isp.Spec.PackageVulnerabilityRequirements.WhitelistCVEs then
      specVulnScan isp image maxSev maxNoFixSev rest
    else
      match severityWithinThreshold
          (if v.HasFixAvailable then maxSev else maxNoFixSev) v.Severity with
      | (_, some e) => ([], some e)
      | (true, none) => specVulnScan isp image maxSev maxNoFixSev rest
      | (false, none) =>
        let res := specVulnScan isp image maxSev maxNoFixSev rest
        ((if v.HasFixAvailable then
            NewViolation (some v) .SeverityViolation
              (SeverityReason image v isp)
          else
            NewViolation (some v) .FixUnavailableViolation
              (FixUnavailableReason image v isp)) :: res.1, res.2)

/-- The ISP record with MaximumSeverity replaced. -/
def withMaxSeverity (isp : ImageSecurityPolicy) (s : String) :
    ImageSecurityPolicy :=
  { isp with Spec := { isp.Spec with PackageVulnerabilityRequirements :=
      { isp.Spec.PackageVulnerabilityRequirements with
          MaximumSeverity := s } } }

/-- The ISP record with MaximumFixUnavailableSeverity replaced. -/
def withMaxFixUnavailableSeverity (isp : ImageSecurityPolicy) (s : String) :
    ImageSecurityPolicy :=
  { isp with Spec := { isp.Spec with PackageVulnerabilityRequirements :=
      { isp.Spec.PackageVulnerabilityRequirements with
          MaximumFixUnavailableSeverity := s } } }

/-! Concrete fixtures used by the witness theorems. -/

/-- A benign oracle environment: every image is fully qualified, no ArkCI
occurrence verifies, the atomic payload always builds, no signature
verifies, keys do not parse, the global whitelist removes nothing. -/
def egEnv : Externals :=
  { FullyQualifiedImage := fun _ => true
    arkSignatureNote := "ark-note"
    verifyArkSignature := fun _ => .error "no jwt found"
    newAtomicContainerSigErr := fun _ => none
    verifyAttestationSignature := fun _ _ _ => false
    fingerprint := fun _ => .error "openpgp failure"
    RemoveGloballyWhitelistedImages := fun l => l }

/-- egEnv with an image parser that qualifies nothing. -/
def egEnvUnqualified : Externals :=
  { egEnv with FullyQualifiedImage := fun _ => false }

/-- egEnv with a fingerprint parser and a verifier that accept
everything. -/
def egEnvAttested : Externals :=
  { egEnv with
      verifyAttestationSignature := fun _ _ _ => true
      fingerprint := fun _ => .ok ("KEY", "FP") }

/-- Vulnerability requirements with the two thresholds empty and no
whitelisted CVE. -/
def egPVR : PackageVulnReqs := ⟨"", "", []⟩

/-- An ISP with every optional check disabled. -/
def egIsp : ImageSecurityPolicy := ⟨"test-isp", "default", ⟨[], egPVR, [], [], []⟩⟩

/-- An ISP whitelisting one image. -/
def egIspWhitelisted : ImageSecurityPolicy :=
  ⟨"test-isp", "default", ⟨["gcr.io/x/y@sha256:abc"], egPVR, [], [], []⟩⟩

/-- An ISP with MaximumSeverity MEDIUM. -/
def egIspSeverity : ImageSecurityPolicy :=
  ⟨"test-isp", "default", ⟨[], ⟨"MEDIUM", "", []⟩, [], [], []⟩⟩

/-- An ISP naming one attestation authority. -/
def egIspAuth : ImageSecurityPolicy :=
  ⟨"test-isp", "default", ⟨[], egPVR, [], [], ["auth1"]⟩⟩

/-- A CRITICAL vulnerability with a fix available. -/
def egVulnCritical : Vulnerability := ⟨"CVE-2020-0001", "CRITICAL", true⟩

/-- A HIGH vulnerability with a fix available. -/
def egVulnHigh : Vulnerability := ⟨"CVE-2020-0002", "HIGH", true⟩

/-- A backend with nothing recorded. -/
def egFetcher : Fetcher :=
  { Vulnerabilities := fun _ => ([], none)
    OccurencesV1 := fun _ => ([], none)
    Attestations := fun _ => ([], none) }

/-- A backend reporting one CRITICAL vulnerability. -/
def egFetcherCritical : Fetcher :=
  { egFetcher with Vulnerabilities := fun _ => ([egVulnCritical], none) }

/-- A backend reporting one HIGH vulnerability. -/
def egFetcherHigh : Fetcher :=
  { egFetcher with Vulnerabilities := fun _ => ([egVulnHigh], none) }

/-- A backend whose OccurencesV1 call fails with a transport error. -/
def egFetcherOccErr : Fetcher :=
  { egFetcher with OccurencesV1 := fun _ => ([], some "backend unavailable") }

/-- One PGP attestation signed by the key with fingerprint FP. -/
def egAttestation : PGPAttestation := ⟨"sig", "FP", "occ1"⟩

/-- A backend reporting that attestation. -/
def egFetcherAttested : Fetcher :=
  { egFetcher with Attestations := fun _ => ([egAttestation], none) }

/-- An attestor fetcher resolving every name to a keyless attestor. -/
def egAf : AttestorFetcher :=
  { GetAttestor := fun name => (some ⟨name, []⟩, none) }

/-- One attestation authority. -/
def egAuthority : AttestationAuthority :=
  ⟨"auth1", "default", ⟨"v1/projects/p", "KEYDATA", "secret1"⟩⟩

/-- A webhook-mode reviewer over the attested backend. -/
def egReviewer : Reviewer :=
  { config :=
    { Validate := fun isp image mf af =>
        ValidateImageSecurityPolicy egEnvAttested isp image mf af
      Attestors := egAf
      Auths := fun _ _ => .ok egAuthority
      Strategy := ⟨fun _ _ => none⟩
      ClusterWhitelistedImagesRemover := fun l => (l, none)
      IsWebhook := true }
    client := egFetcherAttested }

/-! Helper lemmas shared by the claim theorems. -/

/-- cveInWhitelist is membership in the CVE whitelist. -/
theorem cveInWhitelist_iff (isp : ImageSecurityPolicy) (c : String) :
    cveInWhitelist isp c = true ↔
      c ∈ isp.Spec.PackageVulnerabilityRequirements.WhitelistCVEs := by
  simp [cveInWhitelist, List.any_eq_true]

/-- The evaluator's vulnerability loop computes exactly the scan the spec
describes. -/
theorem vulnViolations_eq_specVulnScan (isp : ImageSecurityPolicy)
    (image maxSev maxNoFixSev : String) (l : List Vulnerability) :
    vulnViolations isp image maxSev maxNoFixSev l =
      specVulnScan isp image maxSev maxNoFixSev l := by
  induction l with
  | nil => rfl
  | cons v rest ih =>
    by_cases hw : cveInWhitelist isp v.CVE = true
    · have hm := (cveInWhitelist_iff isp v.CVE).mp hw
      simp [vulnViolations, specVulnScan, hw, hm, ih]
    · have hm : ¬ v.CVE ∈ isp.Spec.PackageVulnerabilityRequirements.WhitelistCVEs :=
        fun h => hw ((cveInWhitelist_iff isp v.CVE).mpr h)
      cases hfix : v.HasFixAvailable with
      | false =>
        rcases hst : severityWithinThreshold maxNoFixSev v.Severity with ⟨ok, err⟩
        cases err with
        | some e => simp [vulnViolations, specVulnScan, hw, hm, hfix, hst]
        | none =>
          cases ok <;>
            simp [vulnViolations, specVulnScan, hw, hm, hfix, hst, ih]
      | true =>
        rcases hst : severityWithinThreshold maxSev v.Severity with ⟨ok, err⟩
        cases err with
        | some e => simp [vulnViolations, specVulnScan, hw, hm, hfix, hst]
        | none =>
          cases ok <;>
            simp [vulnViolations, specVulnScan, hw, hm, hfix, hst, ih]

/-- Unfolding of the evaluator past the whitelist and qualification checks:
for a non-whitelisted, fully qualified image with a clean vulnerability
fetch, the evaluator is the vulnerability loop over the effective
thresholds followed, on success, by the post-vulnerability phases. -/
theorem validate_unfold (env : Externals) (isp : ImageSecurityPolicy)
    (image : String) (mf : Fetcher) (af : AttestorFetcher)
    (vulnz : List Vulnerability)
    (h1 : imageInWhitelist isp image = false)
    (h2 : env.FullyQualifiedImage image = true)
    (h3 : mf.Vulnerabilities image = (vulnz, none)) :
    ValidateImageSecurityPolicy env isp image mf af =
      match vulnViolations isp image (effectiveMaxSeverity isp)
          (effectiveMaxFixUnavailableSeverity isp) vulnz with
      | (vs, some e) => (vs, some e)
      | (vs, none) => postVulnPhase env isp image mf af vs := by
  unfold ValidateImageSecurityPolicy
  rw [h1, h2, h3]
  simp

/-- Threshold comparison for lattice levels: with a non-sentinel, valid
threshold and a valid severity, the result is the rank comparison. -/
theorem severityWithinThreshold_lattice (mx s : String) (mv sv : Int)
    (h1 : mx ≠ BlockAll) (h2 : mx ≠ AllowAll)
    (hm : Severity_value mx = some mv) (hs : Severity_value s = some sv) :
    severityWithinThreshold mx s = (decide (sv ≤ mv), none) := by
  unfold severityWithinThreshold
  rw [if_neg h1, if_neg h2, hm, hs]

/-- C1: for every ISP and image, membership in the ISP's imageWhitelist
makes ValidateImageSecurityPolicy return an empty violation list and no
error, whatever the metadata backend, the attestor fetcher and the other
external collaborators would report. -/
theorem whitelisted_image_passes (env : Externals)
    (isp : ImageSecurityPolicy) (image : String) (mf : Fetcher)
    (af : AttestorFetcher) (h : imageInWhitelist isp image = true) :
    ValidateImageSecurityPolicy env isp image mf af = ([], none) := by
  unfold ValidateImageSecurityPolicy
  rw [h]
  simp

/-- Witness for C1 at the spec's scenario 1: the whitelisted image passes
even though the backend reports a CRITICAL vulnerability. -/
theorem whitelisted_image_passes_witness :
    imageInWhitelist egIspWhitelisted "gcr.io/x/y@sha256:abc" = true ∧
    ValidateImageSecurityPolicy egEnv egIspWhitelisted
      "gcr.io/x/y@sha256:abc" egFetcherCritical egAf = ([], none) :=
  ⟨rfl, whitelisted_image_passes egEnv egIspWhitelisted
    "gcr.io/x/y@sha256:abc" egFetcherCritical egAf rfl⟩

/-- C9: a non-whitelisted image that is not fully qualified yields exactly
one Unqualified-Image violation and a nil error, and the result does not
depend on the metadata backend or the attestor fetcher (no fetch runs). -/
theorem unqualified_image_single_violation (env : Externals)
    (isp : ImageSecurityPolicy) (image : String) (mf mf2 : Fetcher)
    (af af2 : AttestorFetcher)
    (h1 : imageInWhitelist isp image = false)
    (h2 : env.FullyQualifiedImage image = false) :
    ValidateImageSecurityPolicy env isp image mf af =
      ([NewViolation none .UnqualifiedImageViolation
        (UnqualifiedImageReason image)], none) ∧
    ValidateImageSecurityPolicy env isp image mf af =
      ValidateImageSecurityPolicy env isp image mf2 af2 := by
  have key : ∀ mf' af', ValidateImageSecurityPolicy env isp image mf' af' =
      ([NewViolation none .UnqualifiedImageViolation
        (UnqualifiedImageReason image)], none) := by
    intro mf' af'
    unfold ValidateImageSecurityPolicy
    rw [h1, h2]
    simp
  exact ⟨key mf af, by rw [key mf af, key mf2 af2]⟩

/-- Witness for C9 at the spec's scenario 2: the bare image nginx. -/
theorem unqualified_image_single_violation_witness :
    imageInWhitelist egIsp "nginx" = false ∧
    egEnvUnqualified.FullyQualifiedImage "nginx" = false ∧
    (ValidateImageSecurityPolicy egEnvUnqualified egIsp "nginx"
        egFetcherCritical egAf =
      ([NewViolation none .UnqualifiedImageViolation
        (UnqualifiedImageReason "nginx")], none) ∧
    ValidateImageSecurityPolicy egEnvUnqualified egIsp "nginx"
        egFetcherCritical egAf =
      ValidateImageSecurityPolicy egEnvUnqualified egIsp "nginx" egFetcher
        egAf) :=
  ⟨rfl, rfl, unqualified_image_single_violation egEnvUnqualified egIsp
    "nginx" egFetcherCritical egFetcher egAf egAf rfl rfl⟩

/-- C10: the sentinel thresholds BLOCK_ALL and ALLOW_ALL are decided
before any validation of the actual severity string, so they return
(false, nil) and (true, nil) for every actual, valid or not. -/
theorem sentinel_thresholds_decide_first (s : String) :
    severityWithinThreshold "BLOCK_ALL" s = (false, none) ∧
    severityWithinThreshold "ALLOW_ALL" s = (true, none) := by
  constructor <;> simp [severityWithinThreshold, BlockAll, AllowAll]

/-- C4: the threshold test returns false for the block-all sentinel, true
for the allow-all sentinel, the rank comparison rank(actual) ≤ rank(max)
when both strings are lattice levels, an error when the threshold is no
sentinel and either string is not a lattice level; and every lattice level
is within itself. -/
theorem within_threshold_lattice_spec (mx s : String) :
    severityWithinThreshold BlockAll s = (false, none) ∧
    severityWithinThreshold AllowAll s = (true, none) ∧
    (mx ≠ BlockAll → mx ≠ AllowAll → isLatticeLevel mx = true →
      isLatticeLevel s = true →
      severityWithinThreshold mx s =
        (decide (severityRank s ≤ severityRank mx), none)) ∧
    (mx ≠ BlockAll → mx ≠ AllowAll →
      (isLatticeLevel mx = false ∨ isLatticeLevel s = false) →
      (severityWithinThreshold mx s).2.isSome = true) ∧
    (isLatticeLevel s = true → severityWithinThreshold s s = (true, none)) := by
  refine ⟨?_, ?_, ?_, ?_, ?_⟩
  · simp [severityWithinThreshold, BlockAll]
  · simp [severityWithinThreshold, BlockAll, AllowAll]
  · intro h1 h2 h3 h4
    obtain ⟨mv, hm⟩ := Option.isSome_iff_exists.mp h3
    obtain ⟨sv, hs⟩ := Option.isSome_iff_exists.mp h4
    rw [severityWithinThreshold_lattice mx s mv sv h1 h2 hm hs]
    simp [severityRank, hm, hs]
  · intro h1 h2 h
    unfold severityWithinThreshold
    rw [if_neg h1, if_neg h2]
    cases hm : Severity_value mx with
    | none => rfl
    | some mv =>
      cases hs : Severity_value s with
      | none => rfl
      | some sv =>
        exfalso
        rcases h with h | h
        · simp [isLatticeLevel, hm] at h
        · simp [isLatticeLevel, hs] at h
  · intro h
    obtain ⟨sv, hs⟩ := Option.isSome_iff_exists.mp h
    have hb : s ≠ BlockAll := by
      intro he
      rw [he] at h
      simp [isLatticeLevel, Severity_value, BlockAll] at h
    have ha : s ≠ AllowAll := by
      intro he
      rw [he] at h
      simp [isLatticeLevel, Severity_value, AllowAll] at h
    rw [severityWithinThreshold_lattice s s sv sv hb ha hs hs]
    simp

/-- C5 evidence: a failing OccurencesV1 call does not abort the evaluator.
The source assigns the call's error at line 137 but never checks it, so
the evaluator continues and here returns no violations and a nil error. -/
theorem occurencesV1_error_is_dropped :
    (egFetcherOccErr.OccurencesV1 "gcr.io/x/y@sha256:abc").2 =
      some "backend unavailable" ∧
    ValidateImageSecurityPolicy egEnv egIsp "gcr.io/x/y@sha256:abc"
      egFetcherOccErr egAf = ([], none) :=
  ⟨rfl, rfl⟩

/-- C3: for a non-whitelisted, fully qualified image whose vulnerability
fetch succeeds, the evaluator processes the fetched list exactly as the
spec describes it (specVulnScan): whitelisted CVEs contribute nothing, a
fix-unavailable vulnerability is measured against
maximumFixUnavailableSeverity and contributes a Fix-Unavailable violation
when over it, a fix-available one is measured against maximumSeverity and
contributes a Severity violation when over it, and an unknown severity
string under a non-sentinel threshold aborts the evaluator with an error
(the violations collected so far are kept, and the post-vulnerability
phases are skipped). -/
theorem vulnerability_scan_follows_spec (env : Externals)
    (isp : ImageSecurityPolicy) (image : String) (mf : Fetcher)
    (af : AttestorFetcher) (vulnz : List Vulnerability)
    (h1 : imageInWhitelist isp image = false)
    (h2 : env.FullyQualifiedImage image = true)
    (h3 : mf.Vulnerabilities image = (vulnz, none)) :
    ValidateImageSecurityPolicy env isp image mf af =
      match specVulnScan isp image (effectiveMaxSeverity isp)
          (effectiveMaxFixUnavailableSeverity isp) vulnz with
      | (vs, some e) => (vs, some e)
      | (vs, none) => postVulnPhase env isp image mf af vs := by
  rw [validate_unfold env isp image mf af vulnz h1 h2 h3,
    vulnViolations_eq_specVulnScan]

/-- Witness for C3 at the spec's scenario 3: a HIGH vulnerability against
a MEDIUM threshold. -/
theorem vulnerability_scan_follows_spec_witness :
    imageInWhitelist egIspSeverity "gcr.io/x/y@sha256:abc" = false ∧
    ValidateImageSecurityPolicy egEnv egIspSeverity "gcr.io/x/y@sha256:abc"
        egFetcherHigh egAf =
      match specVulnScan egIspSeverity "gcr.io/x/y@sha256:abc"
          (effectiveMaxSeverity egIspSeverity)
          (effectiveMaxFixUnavailableSeverity egIspSeverity) [egVulnHigh] with
      | (vs, some e) => (vs, some e)
      | (vs, none) =>
        postVulnPhase egEnv egIspSeverity "gcr.io/x/y@sha256:abc"
          egFetcherHigh egAf vs :=
  ⟨rfl, vulnerability_scan_follows_spec egEnv egIspSeverity
    "gcr.io/x/y@sha256:abc" egFetcherHigh egAf [egVulnHigh] rfl rfl rfl⟩

/-- C7: an empty builtProjectIDs list contributes no violation; a
non-empty one contributes at most one Built-Project-ID violation, exactly
when no entry equals the JWT-derived signedProjectID and no entry names a
GCR registry holding the image; and imageInGCR holds exactly when the
image starts with zone.gcr.io/project/ for one of the four zones (the
empty zone standing for the bare gcr.io host). -/
theorem builder_check_spec (isp : ImageSecurityPolicy)
    (image spid pid : String) :
    (isp.Spec.BuiltProjectIDs = [] → builderViolations isp image spid = []) ∧
    (builderViolations isp image spid).length ≤ 1 ∧
    (builderViolations isp image spid ≠ [] ↔
      isp.Spec.BuiltProjectIDs ≠ [] ∧
      ∀ p ∈ isp.Spec.BuiltProjectIDs,
        p ≠ spid ∧ imageInGCR p image = false) ∧
    (builderViolations isp image spid ≠ [] →
      builderViolations isp image spid =
        [NewViolation none .BuildProjectIDViolation
          (buildProjectIDReason image isp)]) ∧
    (imageInGCR pid image = true ↔
      ∃ z ∈ (["", "asia", "eu", "us"] : List String),
        image.startsWith
          ((if z = "" then "gcr.io" else z ++ ".gcr.io") ++ "/" ++ pid ++
            "/")) := by
  refine ⟨?_, ?_, ?_, ?_, ?_⟩
  · intro h
    simp [builderViolations, h]
  · unfold builderViolations
    split
    · split <;> simp
    · simp
  · constructor
    · intro hne
      unfold builderViolations at hne
      by_cases hlen : isp.Spec.BuiltProjectIDs.length > 0
      · rw [if_pos hlen] at hne
        by_cases hany : (isp.Spec.BuiltProjectIDs.any fun projectID =>
            projectID == spid || imageInGCR projectID image) = true
        · rw [if_pos hany] at hne
          exact absurd rfl hne
        · refine ⟨fun he => by simp [he] at hlen, ?_⟩
          intro p hp
          have hnp : ¬ (p == spid || imageInGCR p image) = true :=
            fun h => hany (List.any_eq_true.mpr ⟨p, hp, h⟩)
          constructor
          · intro he
            exact hnp (by simp [he])
          · cases hg : imageInGCR p image
            · rfl
            · exact absurd (by simp [hg]) hnp
      · rw [if_neg hlen] at hne
        exact absurd rfl hne
    · rintro ⟨hne, hall⟩
      unfold builderViolations
      have hlen : isp.Spec.BuiltProjectIDs.length > 0 :=
        List.length_pos.mpr hne
      rw [if_pos hlen]
      have hany : (isp.Spec.BuiltProjectIDs.any fun projectID =>
          projectID == spid || imageInGCR projectID image) = false := by
        rw [Bool.eq_false_iff]
        intro h
        obtain ⟨p, hp, hpp⟩ := List.any_eq_true.mp h
        obtain ⟨h1, h2⟩ := hall p hp
        simp [h1, h2] at hpp
      rw [hany]
      simp
  · intro hne
    unfold builderViolations at hne ⊢
    by_cases hlen : isp.Spec.BuiltProjectIDs.length > 0
    · rw [if_pos hlen] at hne ⊢
      by_cases hany : (isp.Spec.BuiltProjectIDs.any fun projectID =>
          projectID == spid || imageInGCR projectID image) = true
      · rw [if_pos hany] at hne
        exact absurd rfl hne
      · rw [if_neg hany]
    · rw [if_neg hlen] at hne
      exact absurd rfl hne
  · unfold imageInGCR
    constructor
    · intro h
      rcases List.any_eq_true.mp h with ⟨p, hp, hsw⟩
      simp only [List.mem_cons, List.not_mem_nil, or_false] at hp
      rcases hp with rfl | rfl | rfl | rfl
      · exact ⟨"", by simp, by simpa using hsw⟩
      · exact ⟨"asia", by simp, by simpa using hsw⟩
      · exact ⟨"eu", by simp, by simpa using hsw⟩
      · exact ⟨"us", by simp, by simpa using hsw⟩
    · rintro ⟨z, hz, hsw⟩
      simp only [List.mem_cons, List.not_mem_nil, or_false] at hz
      rcases hz with rfl | rfl | rfl | rfl
      · exact List.any_eq_true.mpr ⟨"gcr.io", by simp, by simpa using hsw⟩
      · exact List.any_eq_true.mpr ⟨"asia.gcr.io", by simp, by simpa using hsw⟩
      · exact List.any_eq_true.mpr ⟨"eu.gcr.io", by simp, by simpa using hsw⟩
      · exact List.any_eq_true.mpr ⟨"us.gcr.io", by simp, by simpa using hsw⟩

/-- C8: an empty MaximumSeverity makes the evaluator compare fix-available
vulnerabilities against CRITICAL, and an empty
MaximumFixUnavailableSeverity makes it compare fix-unavailable ones
against the allow-all sentinel, under which every fix-unavailable
vulnerability passes; the evaluator runs its vulnerability loop over
exactly these effective thresholds. -/
theorem severity_defaults_spec (isp : ImageSecurityPolicy)
    (image mS : String) (v : Vulnerability) (rest : List Vulnerability) :
    effectiveMaxSeverity (withMaxSeverity isp "") = "CRITICAL" ∧
    effectiveMaxFixUnavailableSeverity
      (withMaxFixUnavailableSeverity isp "") = "ALLOW_ALL" ∧
    (v.HasFixAvailable = false →
      vulnViolations isp image mS "ALLOW_ALL" (v :: rest) =
        vulnViolations isp image mS "ALLOW_ALL" rest) ∧
    (∀ (env : Externals) (mf : Fetcher) (af : AttestorFetcher)
        (vulnz : List Vulnerability),
      imageInWhitelist isp image = false →
      env.FullyQualifiedImage image = true →
      mf.Vulnerabilities image = (vulnz, none) →
      ValidateImageSecurityPolicy env isp image mf af =
        match vulnViolations isp image (effectiveMaxSeverity isp)
            (effectiveMaxFixUnavailableSeverity isp) vulnz with
        | (vs, some e) => (vs, some e)
        | (vs, none) => postVulnPhase env isp image mf af vs) := by
  refine ⟨?_, ?_, ?_, ?_⟩
  · simp [effectiveMaxSeverity, withMaxSeverity]
  · simp [effectiveMaxFixUnavailableSeverity, withMaxFixUnavailableSeverity]
  · intro hfix
    by_cases hw : cveInWhitelist isp v.CVE = true
    · simp [vulnViolations, hw]
    · have hall : severityWithinThreshold "ALLOW_ALL" v.Severity =
          (true, none) := by
        simp [severityWithinThreshold, BlockAll, AllowAll]
      simp [vulnViolations, hw, hfix, hall]
  · intro env mf af vulnz h1 h2 h3
    exact validate_unfold env isp image mf af vulnz h1 h2 h3

/-- C6: with the attestation list empty and the payload building cleanly,
the required-attestation loop of the evaluator appends exactly one
Required-Attestation violation per required attestor name, in ISP order,
when every name resolves; and a resolution error or a missing attestor
anywhere makes it abort with an error and no violations (the Go code
returns nil violations there). -/
theorem required_attestation_loop_spec (env : Externals)
    (af : AttestorFetcher) (image : String)
    (hsig : env.newAtomicContainerSigErr image = none) :
    (∀ reqs : List String,
      (∀ r ∈ reqs, ∃ a, af.GetAttestor r = (some a, none)) →
      requiredAttViolations env af image [] reqs =
        (reqs.map (fun r => NewViolation none .RequiredAttestationViolation
          (requiredAttestationReason image r)), none)) ∧
    (∀ (pre : List String) (r : String) (post : List String),
      ((af.GetAttestor r).2.isSome = true ∨ af.GetAttestor r = (none, none)) →
      ∃ e, requiredAttViolations env af image [] (pre ++ r :: post) =
        ([], some e)) := by
  have hempty : ∀ a : Attestor,
      hasRequiredAttestation env image a [] = (false, none) := by
    intro a
    unfold hasRequiredAttestation
    rw [hsig]
    rfl
  constructor
  · intro reqs
    induction reqs with
    | nil => intro _; rfl
    | cons r rest ih =>
      intro hres
      obtain ⟨a, ha⟩ := hres r (List.mem_cons_self r rest)
      have hrest := ih (fun x hx => hres x (List.mem_cons_of_mem r hx))
      simp [requiredAttViolations, ha, hempty, hrest]
  · intro pre r post hfail
    induction pre with
    | nil =>
      rcases hga : af.GetAttestor r with ⟨va, ea⟩
      cases ea with
      | some e =>
        cases va with
        | none =>
          exact ⟨"failed to get an attestor: " ++ r ++ ": " ++ e,
            by simp [requiredAttViolations, hga]⟩
        | some a =>
          exact ⟨"failed to get an attestor: " ++ r ++ ": " ++ e,
            by simp [requiredAttViolations, hga]⟩
      | none =>
        cases va with
        | none =>
          exact ⟨"attestor not found: " ++ r,
            by simp [requiredAttViolations, hga]⟩
        | some a =>
          exfalso
          rcases hfail with hf | hf
          · rw [hga] at hf
            simp at hf
          · rw [hga] at hf
            simp at hf
    | cons p pre' ih =>
      obtain ⟨e, he⟩ := ih
      rcases hgp : af.GetAttestor p with ⟨vp, ep⟩
      cases ep with
      | some e2 =>
        cases vp with
        | none =>
          exact ⟨"failed to get an attestor: " ++ p ++ ": " ++ e2,
            by simp [requiredAttViolations, hgp]⟩
        | some a =>
          exact ⟨"failed to get an attestor: " ++ p ++ ": " ++ e2,
            by simp [requiredAttViolations, hgp]⟩
      | none =>
        cases vp with
        | none =>
          exact ⟨"attestor not found: " ++ p,
            by simp [requiredAttViolations, hgp]⟩
        | some a =>
          exact ⟨e, by simp [requiredAttViolations, hgp, hempty, he]⟩

/-- Witness for C6 at the spec's scenario 5: requireAttestationsBy names
build-bot, no attestation exists, one Required-Attestation violation. -/
theorem required_attestation_loop_spec_witness :
    requiredAttViolations egEnv egAf "gcr.io/x/y@sha256:abc" []
        ["build-bot"] =
      ([NewViolation none .RequiredAttestationViolation
        (requiredAttestationReason "gcr.io/x/y@sha256:abc" "build-bot")],
        none) :=
  (required_attestation_loop_spec egEnv egAf "gcr.io/x/y@sha256:abc"
      rfl).1 ["build-bot"] (fun r _ => ⟨⟨r, []⟩, rfl⟩)

/-- A validly attested image is skipped by the per-image loop in webhook
mode: reviewing it at the head is reviewing the remaining images. -/
theorem reviewImagesForISP_skip (env : Externals) (r : Reviewer)
    (isp : ImageSecurityPolicy) (auths : List AttestationAuthority)
    (image : String) (atts : List PGPAttestation)
    (hweb : r.config.IsWebhook = true)
    (hfetch : r.client.Attestations image = (atts, none))
    (hvalid : hasValidImageAttestations env image atts auths = true) :
    ∀ rest, reviewImagesForISP env r isp auths (image :: rest) =
      reviewImagesForISP env r isp auths rest := by
  intro rest
  have hfv : (fetchAndVerifyAttestations env r image auths).1 = true := by
    unfold fetchAndVerifyAttestations
    rw [hfetch]
    exact hvalid
  simp only [reviewImagesForISP, hfv, hweb, Bool.and_self, if_true]

/-- Every entry of the per-image loop's Validate log carries the loop's
own ISP. -/
theorem reviewImagesForISP_log_fst (env : Externals) (r : Reviewer)
    (isp : ImageSecurityPolicy) (auths : List AttestationAuthority) :
    ∀ (images : List String) (p : ImageSecurityPolicy × String),
      p ∈ (reviewImagesForISP env r isp auths images).2 → p.1 = isp := by
  intro images
  induction images with
  | nil =>
    intro p hp
    simp [reviewImagesForISP] at hp
  | cons image rest ih =>
    intro p hp
    rcases hv : r.config.Validate isp image r.client r.config.Attestors
      with ⟨viols, err⟩
    rcases hri : reviewImagesForISP env r isp auths rest with ⟨err2, log2⟩
    by_cases hb : ((fetchAndVerifyAttestations env r image auths).1 &&
        r.config.IsWebhook) = true
    · simp only [reviewImagesForISP, if_pos hb] at hp
      exact ih p hp
    · cases err with
      | some e =>
        simp only [reviewImagesForISP, if_neg hb, hv] at hp
        simp at hp
        rw [hp]
      | none =>
        by_cases hz : (viols.length != 0) = true
        · simp only [reviewImagesForISP, if_neg hb, hv, if_pos hz] at hp
          simp at hp
          rw [hp]
        · simp only [reviewImagesForISP, if_neg hb, hv, if_neg hz, hri] at hp
          simp at hp
          rcases hp with hp | hp
          · rw [hp]
          · exact ih p (by rw [hri]; exact hp)

/-- In webhook mode a validly attested image is never passed to Validate
by the per-image loop of its ISP. -/
theorem reviewImagesForISP_not_called (env : Externals) (r : Reviewer)
    (isp : ImageSecurityPolicy) (auths : List AttestationAuthority)
    (image : String) (atts : List PGPAttestation)
    (hweb : r.config.IsWebhook = true)
    (hfetch : r.client.Attestations image = (atts, none))
    (hvalid : hasValidImageAttestations env image atts auths = true) :
    ∀ images, (isp, image) ∉ (reviewImagesForISP env r isp auths images).2 := by
  intro images
  induction images with
  | nil => simp [reviewImagesForISP]
  | cons img rest ih =>
    by_cases he : img = image
    · subst he
      rw [reviewImagesForISP_skip env r isp auths img atts hweb hfetch
        hvalid rest]
      exact ih
    · intro hmem
      rcases hv : r.config.Validate isp img r.client r.config.Attestors
        with ⟨viols, err⟩
      rcases hri : reviewImagesForISP env r isp auths rest with ⟨err2, log2⟩
      by_cases hb : ((fetchAndVerifyAttestations env r img auths).1 &&
          r.config.IsWebhook) = true
      · simp only [reviewImagesForISP, if_pos hb] at hmem
        exact ih hmem
      · cases err with
        | some e =>
          simp only [reviewImagesForISP, if_neg hb, hv] at hmem
          simp at hmem
          exact he hmem.symm
        | none =>
          by_cases hz : (viols.length != 0) = true
          · simp only [reviewImagesForISP, if_neg hb, hv, if_pos hz] at hmem
            simp at hmem
            exact he hmem.symm
          · simp only [reviewImagesForISP, if_neg hb, hv, if_neg hz,
              hri] at hmem
            rcases List.mem_cons.mp hmem with h | h
            · exact he (congrArg Prod.snd h).symm
            · exact ih (by rw [hri]; exact h)

/-- In webhook mode a validly attested image is never passed to Validate
by the ISP loop, for the ISP whose authorities verify it. -/
theorem reviewISPs_not_called (env : Externals) (r : Reviewer)
    (isp : ImageSecurityPolicy) (auths : List AttestationAuthority)
    (image : String) (atts : List PGPAttestation)
    (hweb : r.config.IsWebhook = true)
    (hfetch : r.client.Attestations image = (atts, none))
    (hvalid : hasValidImageAttestations env image atts auths = true)
    (hres : getAttestationAuthoritiesForISP r isp = .ok auths) :
    ∀ images isps, (isp, image) ∉ (reviewISPs env r images isps).2 := by
  intro images isps
  induction isps with
  | nil => simp [reviewISPs]
  | cons isp2 rest ih =>
    intro hmem
    cases hga : getAttestationAuthoritiesForISP r isp2 with
    | error e =>
      simp only [reviewISPs, hga] at hmem
      simp at hmem
    | ok auths2 =>
      have hnotlog :
          (isp, image) ∉ (reviewImagesForISP env r isp2 auths2 images).2 := by
        by_cases hisp : isp2 = isp
        · subst hisp
          rw [hres] at hga
          have hau : auths = auths2 := by
            injection hga
          subst hau
          exact reviewImagesForISP_not_called env r _ auths image atts
            hweb hfetch hvalid images
        · intro h
          exact hisp (reviewImagesForISP_log_fst env r isp2 auths2 images
            (isp, image) h).symm
      rcases hri : reviewImagesForISP env r isp2 auths2 images
        with ⟨err, log⟩
      rw [hri] at hnotlog
      cases err with
      | some e =>
        simp only [reviewISPs, hga, hri] at hmem
        exact hnotlog hmem
      | none =>
        rcases hrs : reviewISPs env r images rest with ⟨err2, log2⟩
        simp only [reviewISPs, hga, hri, hrs] at hmem
        rcases List.mem_append.mp hmem with h | h
        · exact hnotlog h
        · exact ih (by rw [hrs]; exact h)

/-- C2: in webhook mode, when the fetched attestation list of an image
holds an attestation verifying under the public key of one of the ISP's
configured authorities, the per-image loop skips the image without
invoking the configured Validate function and proceeds to the next image,
and (whenever that ISP's authorities resolve) Review never passes the pair
to Validate. -/
theorem review_short_circuits_attested_image (env : Externals)
    (r : Reviewer) (isp : ImageSecurityPolicy)
    (auths : List AttestationAuthority) (image : String)
    (atts : List PGPAttestation)
    (hweb : r.config.IsWebhook = true)
    (hfetch : r.client.Attestations image = (atts, none))
    (hvalid : hasValidImageAttestations env image atts auths = true) :
    (∀ rest, reviewImagesForISP env r isp auths (image :: rest) =
      reviewImagesForISP env r isp auths rest) ∧
    (getAttestationAuthoritiesForISP r isp = .ok auths →
      ∀ images isps, (isp, image) ∉ (Review env r images isps).2) := by
  constructor
  · exact reviewImagesForISP_skip env r isp auths image atts hweb hfetch
      hvalid
  · intro hres images isps hmem
    rcases hc : r.config.ClusterWhitelistedImagesRemover
        (env.RemoveGloballyWhitelistedImages images) with ⟨imgs2, cerr⟩
    by_cases h0 : isps.length = 0
    · simp only [Review, if_pos h0] at hmem
      simp at hmem
    · by_cases h1 : (env.RemoveGloballyWhitelistedImages images).length = 0
      · simp only [Review, if_neg h0, if_pos h1] at hmem
        simp at hmem
      · cases cerr with
        | some e =>
          simp only [Review, if_neg h0, if_neg h1, hc] at hmem
          simp at hmem
        | none =>
          by_cases h2 : imgs2.length = 0
          · simp only [Review, if_neg h0, if_neg h1, hc, if_pos h2] at hmem
            simp at hmem
          · simp only [Review, if_neg h0, if_neg h1, hc, if_neg h2] at hmem
            exact reviewISPs_not_called env r isp auths image atts hweb
              hfetch hvalid hres imgs2 isps hmem

/-- Witness for C2 at the spec's scenario 6: a webhook reviewer over an
attested backend never passes the attested image to Validate. -/
theorem review_short_circuits_attested_image_witness :
    (egIspAuth, "gcr.io/x/y@sha256:abc") ∉
      (Review egEnvAttested egReviewer ["gcr.io/x/y@sha256:abc"]
        [egIspAuth]).2 :=
  (review_short_circuits_attested_image egEnvAttested egReviewer egIspAuth
      [egAuthority] "gcr.io/x/y@sha256:abc" [egAttestation] rfl rfl
      rfl).2 rfl ["gcr.io/x/y@sha256:abc"] [egIspAuth]

end Kritis
